import Mathlib

/-!
Verification of the screp StarCraft: Brood War replay parser against its
natural-language specification.

The Go sources are shallowly embedded: byte buffers become `List Nat`
(each element a byte value), Go `uint32` arithmetic is `Nat` arithmetic
reduced `% 2^32` where the source wraps, fallible reads return `Option`,
and the stateful decoders become explicit state-passing functions.
Loops of the source that are not structurally decreasing are given an
explicit fuel parameter; fuel exhaustion models non-termination as a
decode failure.

The file is organised as: all definitions (the embedding), then all
theorems (helper lemmas followed by the claim theorems).
-/

namespace Screp

/-- Modulus for Go `uint32` arithmetic. -/
def u32 (n : Nat) : Nat := n % 4294967296

/-- Modulus for Go `uint16` values. -/
def u16 (n : Nat) : Nat := n % 65536

/-- Modulus for Go `byte` values. -/
def u8 (n : Nat) : Nat := n % 256

/-! ## Format detection (repparser/repdecoder/repdecoder.go) -/

/-- RepFormat identifies the replay format (Go `RepFormat` constants). -/
inductive RepFormat where
  | unknown
  | legacy
  | modern
  | modern121
  deriving DecidableEq, Repr

/-- Embedding of Go `detectRepFormat`: detects the replay format based on
the file header (the initial bytes of the binary replay).  Returns
`unknown` when fewer than 30 bytes are given; classifies `modern121`
when byte 12 is ASCII letter s (0x73); otherwise `legacy` when byte 28
differs from 0x78, else `modern`. -/
def detectRepFormat (fileHeader : List Nat) : RepFormat :=
  if fileHeader.length < 30 then .unknown
  else if fileHeader.getD 12 0 = 0x73 then .modern121
  else if fileHeader.getD 28 0 ≠ 0x78 then .legacy
  else .modern

/-! ## UnitTag accessors (rep/repcmd/cmd.go) -/

/-- Embedding of Go `UnitTag.Index`: `uint16(ut) & 0x7ff`.  The tag is
represented as a `Nat` reduced to its 16-bit value. -/
def unitTagIndex (ut : Nat) : Nat := u16 ut &&& 0x7ff

/-- Embedding of Go `UnitTag.Recycle`: `byte(uint16(ut) >> 12)`. -/
def unitTagRecycle (ut : Nat) : Nat := u8 (u16 ut >>> 12)

/-- Embedding of Go `UnitTag.Valid`: `ut != 0xffff`. -/
def unitTagValid (ut : Nat) : Bool := u16 ut ≠ 0xffff

/-! ## Section framing (repparser/repdecoder/repdecoder.go, decoder.NewSection) -/

/-- Little-endian 32-bit read from the front of a byte stream
(Go `decoder.readInt32` via `io.ReadFull`); fails when fewer than
4 bytes remain. -/
def readInt32 (s : List Nat) : Option (Nat × List Nat) :=
  match s with
  | b0 :: b1 :: b2 :: b3 :: rest =>
      some (u8 b0 + 256 * u8 b1 + 65536 * u8 b2 + 16777216 * u8 b3, rest)
  | _ => none

/-- State of the Go `decoder` struct that `NewSection` touches: the replay
format, the sections counter, and the remaining bytes of the underlying
reader. -/
structure DecoderState where
  rf : RepFormat
  sectionsCounter : Nat
  stream : List Nat
  deriving DecidableEq, Repr

/-- Outcome of `decoder.NewSection`. -/
inductive NewSectionResult where
  | ok (d : DecoderState)
  | noMoreSections
  | readErr
  deriving DecidableEq, Repr

/-- Embedding of Go `decoder.NewSection`: increments the sections counter;
for legacy replays the 5th call reports no more sections; for Modern121
replays the call that makes the counter 2 reads and discards one extra
4-byte length field from the stream. -/
def NewSection (d : DecoderState) : NewSectionResult :=
  let d := { d with sectionsCounter := d.sectionsCounter + 1 }
  match d.rf with
  | .legacy =>
      if d.sectionsCounter = 5 then .noMoreSections else .ok d
  | .modern121 =>
      if d.sectionsCounter = 2 then
        match readInt32 d.stream with
        | some (_, rest) => .ok { d with stream := rest }
        | none => .readErr
      else .ok d
  | _ => .ok d

/-- Number of stream bytes consumed by a `NewSection` call that succeeds
(`none` when the call does not return `ok`). -/
def newSectionConsumed (d : DecoderState) : Option Nat :=
  match NewSection d with
  | .ok d2 => some (d.stream.length - d2.stream.length)
  | _ => none

/-! ## Header parsing: team rewriting (repparser.go, parseHeader) -/

/-- Game types relevant to the team-rewriting logic of `parseHeader`
(repcore game type enumeration, other entries collapsed to `other`). -/
inductive GameType where
  | melee
  | ffa
  | oneOnOne
  | ums
  | other
  deriving DecidableEq, Repr

/-- Header player record: the fields of `rep.Player` that the
team-rewriting logic of `parseHeader` touches (`Name` kept as its raw
bytes; an empty name marks an unused slot). -/
structure HPlayer where
  name : List Nat
  team : Nat
  slotID : Nat
  deriving DecidableEq, Repr, Inhabited

/-- Embedding of the `OrigPlayers` filter of `parseHeader`: only slots
with a non-empty name are real players, in slot order. -/
def origPlayers (slots : List HPlayer) : List HPlayer :=
  slots.filter (fun p => p.name ≠ [])

/-- Embedding of the FFA team-assignment loop of `parseHeader`:
`for i, p := range h.OrigPlayers { p.Team = byte(i + 1) }`. -/
def assignTeamsFFA : Nat → List HPlayer → List HPlayer
  | _, [] => []
  | i, p :: rest => { p with team := u8 (i + 1) } :: assignTeamsFFA (i + 1) rest

/-- Embedding of the team-rewriting heuristics of `parseHeader`: for
melee / one-on-one games with exactly 2 players sharing a team byte the
teams become 1 and 2; for FFA games teams are assigned incrementally
from 1; otherwise teams are left as read. -/
def rewriteTeams (typ : GameType) (orig : List HPlayer) : List HPlayer :=
  let orig :=
    if (typ = .melee ∨ typ = .oneOnOne) ∧ orig.length = 2 ∧
        (orig.getD 0 default).team = (orig.getD 1 default).team then
      [{ orig.getD 0 default with team := 1 }, { orig.getD 1 default with team := 2 }]
    else orig
  if typ = .ffa then assignTeamsFFA 0 orig else orig

/-- Team bytes of the named players produced by `parseHeader` for a given
game type and slot list. -/
def parseHeaderTeams (typ : GameType) (slots : List HPlayer) : List HPlayer :=
  rewriteTeams typ (origPlayers slots)

/-! ## Observer detection (rep/replay.go, detectObservers) -/

/-- Player types relevant to observer / winner detection. -/
inductive PlayerType where
  | computer
  | human
  | other
  deriving DecidableEq, Repr

/-- Per-player data consulted by `detectObservers`: the `Header.Players`
entry joined with its parallel `Computed.PlayerDescs` entry and its
`pidBuilds` build count. -/
structure ObsPlayer where
  ptype : PlayerType
  apm : Int
  builds : Int
  lastCmdFrame : Int
  observer : Bool
  deriving DecidableEq, Repr

/-- Observer profile (`obsProfile` struct): limits for the heuristic. -/
structure ObsProfile where
  apmLimit : Int
  buildCmdsLimit : Int
  earlyLeaveFrame : Int
  computer : Bool
  deriving DecidableEq, Repr

/-- Embedding of the observer criteria inside `detectObservers`: human
with low APM and few build commands, or (when the profile sets an early
leave frame) a human that left early, or (for profiles flagging
computers) a computer player. -/
def obsCriteria (prof : ObsProfile) (p : ObsPlayer) : Bool :=
  (decide (p.ptype = .human) &&
    ((decide (p.apm < prof.apmLimit) && decide (p.builds < prof.buildCmdsLimit)) ||
      (decide (prof.earlyLeaveFrame > 0) &&
        decide (p.lastCmdFrame < prof.earlyLeaveFrame)))) ||
  (prof.computer && decide (p.ptype = .computer))

/-- Embedding of `Replay.detectObservers`: flag every player matching the
criteria, and if fewer than 2 players remain unflagged, undo all
observer flags. -/
def detectObservers (prof : ObsProfile) (ps : List ObsPlayer) : List ObsPlayer :=
  let flagged := ps.map (fun p =>
    if obsCriteria prof p then { p with observer := true } else p)
  let numObs := ps.countP (obsCriteria prof)
  if ps.length - numObs < 2 then
    flagged.map (fun p => { p with observer := false })
  else flagged

/-! ## Winner detection (rep/replay.go, computeWinners) -/

/-- Player data consulted by `computeWinners`: the `Header.Players`
entry fields it reads. -/
structure WPlayer where
  pid : Nat
  team : Nat
  ptype : PlayerType
  observer : Bool
  deriving DecidableEq, Repr

/-- Inputs of `computeWinners`: the header players, the player IDs of the
`Computed.LeaveGameCmds` in chronological (encounter) order, and the
inferred replay saver.  Only the `PlayerID` of a leave-game command is
read by the winner algorithm. -/
structure WReplay where
  players : List WPlayer
  leaveGamePIDs : List Nat
  repSaverPlayerID : Option Nat
  deriving DecidableEq, Repr

/-- Embedding of the `Header.PIDPlayers` map lookup; player IDs are
assumed distinct (the header builds the map keyed by ID). -/
def pidPlayer (ps : List WPlayer) (pid : Nat) : Option WPlayer :=
  ps.find? (fun p => p.pid == pid)

/-- Association-list model of a Go `map[byte]int` counter, in first
insertion order (the claims proved below do not depend on Go's
unspecified map iteration order). -/
def bumpCount (m : List (Nat × Int)) (k : Nat) : List (Nat × Int) :=
  match m with
  | [] => [(k, 1)]
  | (k2, v) :: rest =>
      if k2 = k then (k2, v + 1) :: rest else (k2, v) :: bumpCount rest k

/-- Decrement of a counter map entry, default-inserting at -1 like Go's
`m[k]--` on a missing key. -/
def decCount (m : List (Nat × Int)) (k : Nat) : List (Nat × Int) :=
  match m with
  | [] => [(k, -1)]
  | (k2, v) :: rest =>
      if k2 = k then (k2, v - 1) :: rest else (k2, v) :: decCount rest k

/-- Counter map read with Go's zero default. -/
def lookupCount (m : List (Nat × Int)) (k : Nat) : Int :=
  match m with
  | [] => 0
  | (k2, v) :: rest => if k2 = k then v else lookupCount rest k

/-- Embedding of the team-size bookkeeping loop of `computeWinners`:
returns the non-observer team sizes excluding computers, the computer
counts per team, and the non-observer player count. -/
def buildTeamMaps (players : List WPlayer) :
    List (Nat × Int) × List (Nat × Int) × Nat :=
  players.foldl
    (fun (acc : List (Nat × Int) × List (Nat × Int) × Nat) p =>
      if p.observer then acc
      else if p.ptype = .computer then
        (acc.1, bumpCount acc.2.1 p.team, acc.2.2 + 1)
      else
        (bumpCount acc.1 p.team, acc.2.1, acc.2.2 + 1))
    ([], [], 0)

/-- Embedding of the leave-game list assembly of `computeWinners`: keep
leave-game commands of non-observers, then append one synthetic leave
event for the inferred replay saver whenever the saver maps to a
non-observer player (the source performs no already-present check). -/
def winnerLeavePIDs (r : WReplay) : List Nat :=
  let lg1 := r.leaveGamePIDs.filter (fun pid =>
    match pidPlayer r.players pid with
    | some p => !p.observer
    | none => false)
  match r.repSaverPlayerID with
  | some spid =>
      match pidPlayer r.players spid with
      | some repSaver => if !repSaver.observer then lg1 ++ [repSaver.pid] else lg1
      | none => lg1
  | none => lg1

/-- Embedding of the decrement loop of `computeWinners`: one decrement of
the leaver's team per leave event, in order.  The source guarantees each
PID is present in `PIDPlayers`; a missing PID leaves the map unchanged. -/
def applyLeaves (players : List WPlayer) (sizes : List (Nat × Int))
    (lgs : List Nat) : List (Nat × Int) :=
  lgs.foldl
    (fun m pid =>
      match pidPlayer players pid with
      | some p => decCount m p.team
      | none => m)
    sizes

/-- Embedding of the max-size scan of `computeWinners`:
`maxTeam, maxSize := byte(0), -1` then keep any strictly larger size. -/
def maxTeamSize (sizes : List (Nat × Int)) : Nat × Int :=
  sizes.foldl (fun (acc : Nat × Int) kv =>
    if kv.2 > acc.2 then (kv.1, kv.2) else acc) (0, -1)

/-- Embedding of `Replay.computeWinners`: the "largest remaining team
wins" heuristic.  Returns the winner team, 0 when undetermined. -/
def computeWinners (r : WReplay) : Nat :=
  let maps := buildTeamMaps r.players
  let teamSizes := maps.1
  let teamComps := maps.2.1
  let nonObsPlayersCount := maps.2.2
  if teamComps.any (fun kv => lookupCount teamSizes kv.1 = 0) then 0
  else
    let lgs := winnerLeavePIDs r
    let sizes := applyLeaves r.players teamSizes lgs
    if sizes.length < 2 ∨ lgs = [] then 0
    else
      let mx := maxTeamSize sizes
      if mx.2 > 0 ∧ sizes.countP (fun kv => kv.2 == mx.2) = 1 then mx.1
      else if lgs.length = nonObsPlayersCount then
        match lgs.getLast? with
        | some pid =>
            match pidPlayer r.players pid with
            | some p => p.team
            | none => 0
        | none => 0
      else 0

/-! ## Command decoding (parseCommands of repparser.go) -/

/-- Embedding of the Go `sliceReader`: a byte slice plus the position of
the next byte to read (a `uint32` in the source). -/
structure SliceReader where
  b : List Nat
  pos : Nat
  deriving DecidableEq, Repr

/-- Embedding of `sliceReader.getByte`; fails (Go panics) when the
position is out of range. -/
def getByte (sr : SliceReader) : Option (Nat × SliceReader) :=
  if sr.pos < sr.b.length then
    some (u8 (sr.b.getD sr.pos 0), { sr with pos := u32 (sr.pos + 1) })
  else none

/-- Embedding of `sliceReader.getUint16` (little-endian); fails when
fewer than 2 bytes remain. -/
def getUint16 (sr : SliceReader) : Option (Nat × SliceReader) :=
  if sr.pos + 2 ≤ sr.b.length then
    some (u8 (sr.b.getD sr.pos 0) + 256 * u8 (sr.b.getD (sr.pos + 1) 0),
      { sr with pos := u32 (sr.pos + 2) })
  else none

/-- Embedding of `sliceReader.getUint32` (little-endian); fails when
fewer than 4 bytes remain. -/
def getUint32 (sr : SliceReader) : Option (Nat × SliceReader) :=
  if sr.pos + 4 ≤ sr.b.length then
    some (u8 (sr.b.getD sr.pos 0) + 256 * u8 (sr.b.getD (sr.pos + 1) 0) +
        65536 * u8 (sr.b.getD (sr.pos + 2) 0) +
        16777216 * u8 (sr.b.getD (sr.pos + 3) 0),
      { sr with pos := u32 (sr.pos + 4) })
  else none

/-- Embedding of `sliceReader.readSlice`: returns a slice of exactly
`size` bytes, zero-padded when fewer are available (Go allocates the
slice and `copy` fills what it can), advancing by the copied amount;
fails only when the position is already past the end. -/
def readSlice (sr : SliceReader) (size : Nat) : Option (List Nat × SliceReader) :=
  if sr.pos ≤ sr.b.length then
    let copied := min size (sr.b.length - sr.pos)
    some (((sr.b.drop sr.pos).take copied).map u8 ++ List.replicate (size - copied) 0,
      { sr with pos := u32 (sr.pos + copied) })
  else none

/-- Embedding of the bare `sr.pos += n` position bumps of `parseCommands`
(no bounds check in the source, `uint32` wraparound kept). -/
def skipBytes (sr : SliceReader) (n : Nat) : SliceReader :=
  { sr with pos := u32 (sr.pos + n) }

/-- Common base of all commands (`repcmd.Base`): frame, player ID and the
wire type ID (the `Type` pointer of the source preserves exactly the
ID, including unknown ones). -/
structure CmdBase where
  frame : Nat
  playerID : Nat
  typeID : Nat
  deriving DecidableEq, Repr

/-- Payload variants of the command types decoded by `parseCommands`.
Descriptor lookups of the source (`UnitByID`, `OrderByID`, ...) preserve
the numeric ID, so payloads store the IDs; the chat message is kept as
its raw 80-byte field (text decoding is out of scope). -/
inductive Payload where
  | base
  | rightClick (x y unitTag unit : Nat) (queued : Bool)
  | select (unitTags : List Nat)
  | hotkey (hotkeyType group : Nat)
  | train (unit : Nat)
  | targetedOrder (x y unitTag unit order : Nat) (queued : Bool)
  | build (order x y unit : Nat)
  | land (order x y unit : Nat)
  | queueable (queued : Bool)
  | leaveGame (reason : Nat)
  | minimapPing (x y : Nat)
  | chat (senderSlotID : Nat) (message : List Nat)
  | vision (slotIDs : List Nat)
  | alliance (slotIDs : List Nat) (alliedVictory : Bool)
  | gameSpeed (speed : Nat)
  | cancelTrain (unitTag : Nat)
  | unload (unitTag : Nat)
  | liftOff (x y : Nat)
  | tech (tech : Nat)
  | upgrade (upgrade : Nat)
  | buildingMorph (unit : Nat)
  | latency (latency : Nat)
  | general (data : List Nat)
  deriving DecidableEq, Repr

/-- One decoded command: base plus payload (`Payload.base` when the
source appends the bare `Base`, e.g. for the no-data commands). -/
structure Cmd where
  base : CmdBase
  payload : Payload
  deriving DecidableEq, Repr

/-- Embedding of `repcmd.ParseErrCmd`: the base read for the failed
command plus the reference to the previously decoded command. -/
structure ParseErrCmd where
  base : CmdBase
  prevCmd : Option Cmd
  deriving DecidableEq, Repr

/-- Embedding of the Vision bit loop: 1 bit per slot, 12 slots. -/
def bitSlots : Nat → Nat → Nat → List Nat
  | 0, _, _ => []
  | n + 1, i, data =>
      (if data &&& 1 ≠ 0 then [i] else []) ++ bitSlots n (i + 1) (data >>> 1)

/-- Embedding of the Alliance bit loop: 2 bits per slot, 11 slots; a pair
value of 2 sets the allied-victory flag. -/
def allianceSlots : Nat → Nat → Nat → List Nat × Bool
  | 0, _, _ => ([], false)
  | n + 1, i, data =>
      let rest := allianceSlots n (i + 1) (data >>> 2)
      if data &&& 3 ≠ 0 then (i :: rest.1, rest.2 || (data &&& 3 == 2))
      else rest

/-- Embedding of the unit-tag loop of the Select commands: `count` 2-byte
tags. -/
def readUnitTags : Nat → SliceReader → Option (List Nat × SliceReader)
  | 0, sr => some ([], sr)
  | n + 1, sr =>
      match getUint16 sr with
      | none => none
      | some (t, sr1) =>
          match readUnitTags n sr1 with
          | none => none
          | some (ts, sr2) => some (t :: ts, sr2)

/-- Embedding of the unit-tag loop of the 1.21 Select commands: each tag
is followed by an extra ignored 16-bit field. -/
def readUnitTags121 : Nat → SliceReader → Option (List Nat × SliceReader)
  | 0, sr => some ([], sr)
  | n + 1, sr =>
      match getUint16 sr with
      | none => none
      | some (t, sr1) =>
          match getUint16 sr1 with
          | none => none
          | some (_, sr2) =>
              match readUnitTags121 n sr2 with
              | none => none
              | some (ts, sr3) => some (t :: ts, sr3)

/-- Outcome of dispatching one command type ID inside the command-block
loop of `parseCommands`: a decoded payload with the advanced reader, an
unrecognized type ID (the `default` case), or a failed read (a Go panic,
converted to a parse failure by the guarded top-level entry point). -/
inductive DecodeStep where
  | ok (payload : Payload) (sr : SliceReader)
  | unknown
  | fail
  deriving DecidableEq, Repr

/-- Conversion of a fallible payload read into a `DecodeStep`. -/
def stepOf (o : Option (Payload × SliceReader)) : DecodeStep :=
  match o with
  | some (p, sr) => .ok p sr
  | none => .fail

/-- Embedding of the dispatch `switch base.Type.ID` of `parseCommands`
(v1.12.13): one case per known command type ID, consuming exactly the
bytes the source reads.  `OrderIDBuildingLand` is 0x47 (the
`BuildingLand` entry of the orders table); the numeric values of the
1.21 type ID constants absent from the sources (0x60..0x62, 0x64, 0x65,
around `TypeIDSelect121` = 0x63) follow the spec's description of the
1.21 variants. -/
def decodePayload (typeID : Nat) (sr : SliceReader) : DecodeStep :=
  match typeID with
  | 0x14 => stepOf do  -- TypeIDRightClick
      let (x, sr) ← getUint16 sr
      let (y, sr) ← getUint16 sr
      let (tag, sr) ← getUint16 sr
      let (unit, sr) ← getUint16 sr
      let (q, sr) ← getByte sr
      pure (.rightClick x y tag unit (q != 0), sr)
  | 0x09 | 0x0a | 0x0b => stepOf do  -- TypeIDSelect / SelectAdd / SelectRemove
      let (count, sr) ← getByte sr
      let (tags, sr) ← readUnitTags count sr
      pure (.select tags, sr)
  | 0x13 => stepOf do  -- TypeIDHotkey
      let (ht, sr) ← getByte sr
      let (g, sr) ← getByte sr
      pure (.hotkey ht g, sr)
  | 0x1f | 0x23 => stepOf do  -- TypeIDTrain / TypeIDUnitMorph
      let (unit, sr) ← getUint16 sr
      pure (.train unit, sr)
  | 0x15 => stepOf do  -- TypeIDTargetedOrder
      let (x, sr) ← getUint16 sr
      let (y, sr) ← getUint16 sr
      let (tag, sr) ← getUint16 sr
      let (unit, sr) ← getUint16 sr
      let (ord, sr) ← getByte sr
      let (q, sr) ← getByte sr
      pure (.targetedOrder x y tag unit ord (q != 0), sr)
  | 0x0c => stepOf do  -- TypeIDBuild
      let (ord, sr) ← getByte sr
      let (x, sr) ← getUint16 sr
      let (y, sr) ← getUint16 sr
      let (unit, sr) ← getUint16 sr
      if ord = 0x47 then  -- OrderIDBuildingLand: actually a Land command
        pure (.land ord x y unit, sr)
      else
        pure (.build ord x y unit, sr)
  | 0x1a | 0x2c | 0x2d | 0x1e | 0x2b | 0x28 | 0x25 | 0x26 | 0x21 | 0x22 =>
      stepOf do  -- Stop, Burrow, Unburrow, ReturnCargo, HoldPosition,
                 -- UnloadAll, Unsiege, Siege, Cloack, Decloack
        let (q, sr) ← getByte sr
        pure (.queueable (q != 0), sr)
  | 0x57 => stepOf do  -- TypeIDLeaveGame
      let (reason, sr) ← getByte sr
      pure (.leaveGame reason, sr)
  | 0x58 => stepOf do  -- TypeIDMinimapPing
      let (x, sr) ← getUint16 sr
      let (y, sr) ← getUint16 sr
      pure (.minimapPing x y, sr)
  | 0x5c => stepOf do  -- TypeIDChat
      let (slot, sr) ← getByte sr
      let (msg, sr) ← readSlice sr 80
      pure (.chat slot msg, sr)
  | 0x0d => stepOf do  -- TypeIDVision
      let (data, sr) ← getUint16 sr
      pure (.vision (bitSlots 12 0 data), sr)
  | 0x0e => stepOf do  -- TypeIDAlliance
      let (data, sr) ← getUint32 sr
      let slots := allianceSlots 11 0 data
      pure (.alliance slots.1 slots.2, sr)
  | 0x0f => stepOf do  -- TypeIDGameSpeed
      let (speed, sr) ← getByte sr
      pure (.gameSpeed speed, sr)
  | 0x20 => stepOf do  -- TypeIDCancelTrain
      let (tag, sr) ← getUint16 sr
      pure (.cancelTrain tag, sr)
  | 0x29 => stepOf do  -- TypeIDUnload
      let (tag, sr) ← getUint16 sr
      pure (.unload tag, sr)
  | 0x2f => stepOf do  -- TypeIDLiftOff
      let (x, sr) ← getUint16 sr
      let (y, sr) ← getUint16 sr
      pure (.liftOff x y, sr)
  | 0x30 => stepOf do  -- TypeIDTech
      let (t, sr) ← getByte sr
      pure (.tech t, sr)
  | 0x32 => stepOf do  -- TypeIDUpgrade
      let (up, sr) ← getByte sr
      pure (.upgrade up, sr)
  | 0x35 => stepOf do  -- TypeIDBuildingMorph
      let (unit, sr) ← getUint16 sr
      pure (.buildingMorph unit, sr)
  | 0x55 => stepOf do  -- TypeIDLatency
      let (l, sr) ← getByte sr
      pure (.latency l, sr)
  | 0x12 => stepOf do  -- TypeIDCheat
      let (data, sr) ← readSlice sr 4
      pure (.general data, sr)
  | 0x06 | 0x07 => stepOf do  -- TypeIDSaveGame / TypeIDLoadGame
      let (count, sr) ← getUint32 sr
      pure (.base, skipBytes sr count)
  -- No additional data: KeepAlive, RestartGame, Pause, Resume,
  -- CancelBuild, CancelMorph, CarrierStop, ReaverStop, OrderNothing,
  -- TrainFighter, MergeArchon, CancelNuke, CancelTech, CancelUpgrade,
  -- CancelAddon, Stim, VoiceEnable, VoiceDisable, StartGame,
  -- BriefingStart, MergeDarkArchon, MakeGamePublic
  | 0x05 | 0x08 | 0x10 | 0x11 | 0x18 | 0x19 | 0x1b | 0x1c | 0x1d | 0x27
  | 0x2a | 0x2e | 0x31 | 0x33 | 0x34 | 0x36 | 0x38 | 0x39 | 0x3c | 0x54
  | 0x5a | 0x5b =>
      .ok .base sr
  -- Skipped commands (bare position bumps in the source):
  | 0x37 => .ok .base (skipBytes sr 6)   -- TypeIDSync
  | 0x3a => .ok .base (skipBytes sr 1)   -- TypeIDVoiceSquelch
  | 0x3b => .ok .base (skipBytes sr 1)   -- TypeIDVoiceUnsquelch
  | 0x3d => .ok .base (skipBytes sr 1)   -- TypeIDDownloadPercentage
  | 0x3e => .ok .base (skipBytes sr 5)   -- TypeIDChangeGameSlot
  | 0x3f => .ok .base (skipBytes sr 7)   -- TypeIDNewNetPlayer
  | 0x40 => .ok .base (skipBytes sr 17)  -- TypeIDJoinedGame
  | 0x41 => .ok .base (skipBytes sr 2)   -- TypeIDChangeRace
  | 0x42 => .ok .base (skipBytes sr 1)   -- TypeIDTeamGameTeam
  | 0x43 => .ok .base (skipBytes sr 1)   -- TypeIDUMSTeam
  | 0x44 => .ok .base (skipBytes sr 2)   -- TypeIDMeleeTeam
  | 0x45 => .ok .base (skipBytes sr 2)   -- TypeIDSwapPlayers
  | 0x48 => .ok .base (skipBytes sr 12)  -- TypeIDSavedData
  | 0x56 => .ok .base (skipBytes sr 9)   -- TypeIDReplaySpeed
  -- New commands introduced in 1.21:
  | 0x60 => stepOf do  -- TypeIDRightClick121
      let (x, sr) ← getUint16 sr
      let (y, sr) ← getUint16 sr
      let (tag, sr) ← getUint16 sr
      let (_, sr) ← getUint16 sr
      let (unit, sr) ← getUint16 sr
      let (q, sr) ← getByte sr
      pure (.rightClick x y tag unit (q != 0), sr)
  | 0x61 => stepOf do  -- TypeIDTargetedOrder121
      let (x, sr) ← getUint16 sr
      let (y, sr) ← getUint16 sr
      let (tag, sr) ← getUint16 sr
      let (_, sr) ← getUint16 sr
      let (unit, sr) ← getUint16 sr
      let (ord, sr) ← getByte sr
      let (q, sr) ← getByte sr
      pure (.targetedOrder x y tag unit ord (q != 0), sr)
  | 0x62 => stepOf do  -- TypeIDUnload121
      let (tag, sr) ← getUint16 sr
      let (_, sr) ← getUint16 sr
      pure (.unload tag, sr)
  | 0x63 | 0x64 | 0x65 => stepOf do  -- TypeIDSelect121 / SelectAdd121 / SelectRemove121
      let (count, sr) ← getByte sr
      let (tags, sr) ← readUnitTags121 count sr
      pure (.select tags, sr)
  | _ => .unknown

/-- Embedding of the inner command-block loop of `parseCommands`: while
the position is before the block end, read the player ID and type ID
and dispatch; an unknown type ID records one `ParseErrCmd` (referencing
the previously decoded command) and skips to the block end.  Fuel bounds
the iteration count (the source loop can cycle forever via `uint32`
position wraparound on crafted input). -/
def parseFrameBlock : Nat → Nat → Nat → SliceReader → List Cmd → List ParseErrCmd →
    Option (SliceReader × List Cmd × List ParseErrCmd)
  | 0, _, _, _, _, _ => none
  | fuel + 1, frame, endPos, sr, cmds, pecs =>
      if sr.pos < endPos then
        match getByte sr with
        | none => none
        | some (playerID, sr1) =>
            match getByte sr1 with
            | none => none
            | some (typeID, sr2) =>
                match decodePayload typeID sr2 with
                | .unknown =>
                    parseFrameBlock fuel frame endPos { sr2 with pos := endPos }
                      cmds (pecs ++ [⟨⟨frame, playerID, typeID⟩, cmds.getLast?⟩])
                | .fail => none
                | .ok payload sr3 =>
                    parseFrameBlock fuel frame endPos sr3
                      (cmds ++ [⟨⟨frame, playerID, typeID⟩, payload⟩]) pecs
      else some (sr, cmds, pecs)

/-- Embedding of the outer frame loop of `parseCommands`: read a 4-byte
frame number and a 1-byte command block size, decode the block, then
continue at the block end position.  Also returns the list of frame
numbers read from the buffer, in order. -/
def parseCmdsLoop : Nat → SliceReader → List Cmd → List ParseErrCmd →
    Option (List Cmd × List ParseErrCmd × List Nat)
  | 0, _, _, _ => none
  | fuel + 1, sr, cmds, pecs =>
      if sr.pos < u32 sr.b.length then
        match getUint32 sr with
        | none => none
        | some (frame, sr1) =>
            match getByte sr1 with
            | none => none
            | some (blockSize, sr2) =>
                let endPos := u32 (sr2.pos + blockSize)
                match parseFrameBlock fuel frame endPos sr2 cmds pecs with
                | none => none
                | some (sr3, cmds2, pecs2) =>
                    match parseCmdsLoop fuel { sr3 with pos := endPos } cmds2 pecs2 with
                    | none => none
                    | some (cmdsF, pecsF, frames) => some (cmdsF, pecsF, frame :: frames)
      else some (cmds, pecs, [])

/-- Embedding of `parseCommands` on a decompressed command-section
buffer: returns the decoded commands, the parse-error commands, and the
frame numbers of the processed blocks.  The fuel is sufficient for every
input that does not cycle through `uint32` position wraparound. -/
def parseCommands (data : List Nat) : Option (List Cmd × List ParseErrCmd × List Nat) :=
  parseCmdsLoop (data.length + 2) ⟨data, 0⟩ [] []

/-- Concrete command-section buffer: a frame-50 block holding an unknown
type ID (0xFF) followed by garbage, then a frame-51 block holding a
well-formed Hotkey command. -/
def resyncScenario : List Nat :=
  [50, 0, 0, 0, 5, 0, 0xff, 1, 2, 3,
   51, 0, 0, 0, 4, 1, 0x13, 0, 2]

/-! ## Legacy decompression (repparser/repdecoder/legacy.go) -/

/-- Fixed byte table `off507120` (extra-bit counts of distance codes). -/
def off507120 : List Nat :=
  [0x02, 0x04, 0x04, 0x05, 0x05, 0x05, 0x05, 0x06,
   0x06, 0x06, 0x06, 0x06, 0x06, 0x06, 0x06, 0x06,
   0x06, 0x06, 0x06, 0x06, 0x06, 0x06, 0x07, 0x07,
   0x07, 0x07, 0x07, 0x07, 0x07, 0x07, 0x07, 0x07,
   0x07, 0x07, 0x07, 0x07, 0x07, 0x07, 0x07, 0x07,
   0x07, 0x07, 0x07, 0x07, 0x07, 0x07, 0x07, 0x07,
   0x08, 0x08, 0x08, 0x08, 0x08, 0x08, 0x08, 0x08,
   0x08, 0x08, 0x08, 0x08, 0x08, 0x08, 0x08, 0x08]

/-- Fixed byte table `off507160` (distance code words, fill source). -/
def off507160 : List Nat :=
  [0x03, 0x0D, 0x05, 0x19, 0x09, 0x11, 0x01, 0x3E,
   0x1E, 0x2E, 0x0E, 0x36, 0x16, 0x26, 0x06, 0x3A,
   0x1A, 0x2A, 0x0A, 0x32, 0x12, 0x22, 0x42, 0x02,
   0x7C, 0x3C, 0x5C, 0x1C, 0x6C, 0x2C, 0x4C, 0x0C,
   0x74, 0x34, 0x54, 0x14, 0x64, 0x24, 0x44, 0x04,
   0x78, 0x38, 0x58, 0x18, 0x68, 0x28, 0x48, 0x08,
   0xF0, 0x70, 0xB0, 0x30, 0xD0, 0x50, 0x90, 0x10,
   0xE0, 0x60, 0xA0, 0x20, 0xC0, 0x40, 0x80, 0x00]

/-- Fixed byte table `off5071A0` (extra-bit counts of length codes). -/
def off5071A0 : List Nat :=
  [0x00, 0x00, 0x00, 0x00, 0x00, 0x00, 0x00, 0x00,
   0x01, 0x02, 0x03, 0x04, 0x05, 0x06, 0x07, 0x08]

/-- Fixed byte table `off5071B0` (length code base values, 2 bytes each). -/
def off5071B0 : List Nat :=
  [0x00, 0x00, 0x01, 0x00, 0x02, 0x00, 0x03, 0x00,
   0x04, 0x00, 0x05, 0x00, 0x06, 0x00, 0x07, 0x00,
   0x08, 0x00, 0x0A, 0x00, 0x0E, 0x00, 0x16, 0x00,
   0x26, 0x00, 0x46, 0x00, 0x86, 0x00, 0x06, 0x01]

/-- Fixed byte table `off5071D0` (bit counts of length codes). -/
def off5071D0 : List Nat :=
  [0x03, 0x02, 0x03, 0x03, 0x04, 0x04, 0x04, 0x05,
   0x05, 0x05, 0x05, 0x06, 0x06, 0x06, 0x07, 0x07]

/-- Fixed byte table `off5071E0` (length code words, fill source). -/
def off5071E0 : List Nat :=
  [0x05, 0x03, 0x01, 0x06, 0x0A, 0x02, 0x0C, 0x14,
   0x04, 0x18, 0x08, 0x30, 0x10, 0x20, 0x40, 0x00]

/-- Byte store modelling a zero-initialised Go byte array as the log of
its writes, newest first. -/
def Store : Type := List (Nat × Nat)

/-- Byte-store read: the most recent write at the position, 0 before any
write (the arrays of `legacy.go` start zeroed). -/
def storeRead (st : Store) (j : Nat) : Nat :=
  match st with
  | [] => 0
  | (k, v) :: rest => if j = k then v else storeRead rest j

/-- Byte-store write of one byte. -/
def storeWrite (st : Store) (j v : Nat) : Store := (j, u8 v) :: st

/-- Byte-store write of a list at a position (`copy(esi.data[dst:], tbl)`). -/
def writeList (st : Store) (dst : Nat) (src : List Nat) : Store :=
  match src with
  | [] => st
  | b :: rest => writeList (storeWrite st dst b) (dst + 1) rest

/-- Byte-store copy of `n` bytes from one store position to another,
copying forward one byte at a time (the Go `copy` of `legacy.go` is only
used with destination below source, where forward copy agrees with it). -/
def copyFn (dstF : Store) (dstPos : Nat) (srcF : Store) (srcPos n : Nat) : Store :=
  match n with
  | 0 => dstF
  | n + 1 =>
      copyFn (storeWrite dstF dstPos (storeRead srcF srcPos))
        (dstPos + 1) srcF (srcPos + 1) n

/-- Embedding of the Go `esi` struct of the legacy decoder, together with
its `m24` (`replayEnc`) field: `repSrc`/`repM04`/`repM10` are the
compressed source and its cursor/length, `repM08`/`repM0C`/`repM14` the
caller's output buffer, write cursor and capacity.  All `int32` fields
stay non-negative on every path the source executes, so they are `Nat`. -/
structure Esi where
  m04 : Nat := 0
  m08 : Nat := 0
  m0C : Nat := 0
  m10 : Nat := 0
  m14 : Nat := 0
  m18 : Nat := 0
  m1C : Nat := 0
  m20 : Nat := 0
  data : Store := []
  repSrc : List Nat := []
  repM04 : Nat := 0
  repM08 : Store := []
  repM0C : Nat := 0
  repM10 : Nat := 0
  repM14 : Nat := 0

/-- Embedding of `legacyDecoder.esi28`: copy up to `length` source bytes
to `dstPos` of the work store, advance the source cursor, and return the
copied length. -/
def esi28 (e : Esi) (dstPos length : Nat) : Esi × Nat :=
  let len2 := min (e.repM10 - e.repM04) length
  ({ e with
      data := writeList e.data dstPos ((e.repSrc.drop e.repM04).take len2)
      repM04 := e.repM04 + len2 }, len2)

/-- Embedding of `legacyDecoder.esi2C`: flush `length` work-store bytes at
`srcPos` to the output buffer when they fit; the write cursor advances
unconditionally. -/
def esi2C (e : Esi) (srcPos length : Nat) : Esi :=
  let e2 :=
    if e.repM0C + length ≤ e.repM14 then
      { e with repM08 := copyFn e.repM08 e.repM0C e.data srcPos length }
    else e
  { e2 with repM0C := e2.repM0C + length }

/-- Embedding of `legacyDecoder.common`: pull `count` bits from the bit
accumulator, refilling from the staged source bytes; returns `true` on
source underrun. -/
def common (e : Esi) (count : Nat) : Esi × Bool :=
  if e.m18 < count then
    let e1 := { e with m14 := e.m14 >>> u8 e.m18 }
    let refill : Option Esi :=
      if e1.m1C = e1.m20 then
        let r := esi28 e1 0x2234 0x800
        let e2 : Esi := { r.1 with m20 := r.2 }
        if e2.m20 = 0 then none else some { e2 with m1C := 0 }
      else some e1
    match refill with
    | none =>
        ({ (esi28 e1 0x2234 0x800).1 with m20 := 0 }, true)
    | some e3 =>
        let tmp := ((storeRead e3.data (0x2234 + e3.m1C)) <<< 8) ||| e3.m14
        ({ e3 with
            m1C := e3.m1C + 1
            m14 := tmp >>> (count - (e3.m18 &&& 0xff))
            m18 := e3.m18 + 8 - count }, false)
  else
    ({ e with m18 := e.m18 - count, m14 := e.m14 >>> u8 count }, false)

/-- Embedding of `legacyDecoder.function1`: decode the next literal or
length code; `0x306` signals underrun, `0x305` the end marker (as a
length code of `0x305 - 0x100` plus `0x100`). -/
def function1 (e : Esi) : Esi × Nat :=
  if e.m14 &&& 1 ≠ 0 then
    match common e 1 with
    | (e, true) => (e, 0x306)
    | (e, false) =>
        let result := storeRead e.data (0x2B34 + (e.m14 &&& 0xff))
        match common e (storeRead e.data (0x30F4 + result)) with
        | (e, true) => (e, 0x306)
        | (e, false) =>
            if storeRead e.data (0x3104 + result) ≠ 0 then
              let x := ((1 <<< u8 (storeRead e.data (0x3104 + result))) - 1) &&& e.m14
              match common e (storeRead e.data (0x3104 + result)) with
              | (e, fail) =>
                  if fail ∧ result + x ≠ 0x10E then (e, 0x306)
                  else
                    let base := ((storeRead e.data (0x3114 + 2 * result + 1)) <<< 8) |||
                      (storeRead e.data (0x3114 + 2 * result))
                    (e, base + x + 0x100)
            else (e, result + 0x100)
  else
    match common e 1 with
    | (e, true) => (e, 0x306)
    | (e, false) =>
        if e.m04 = 0 then
          let result := e.m14 &&& 0xff
          match common e 8 with
          | (e, true) => (e, 0x306)
          | (e, false) => (e, result)
        else
          -- ASCII literal mode; unreachable because repSection rejects
          -- chunks with a nonzero mode byte before decoding.
          let step : Esi × Nat :=
            if e.m14 &&& 0xff = 0 then
              match common e 8 with
              | (e, true) => (e, 0x306)
              | (e, false) => (e, storeRead e.data (0x2EB4 + (e.m14 &&& 0xff)))
            else
              let result := storeRead e.data (0x2C34 + (e.m14 &&& 0xff))
              if result = 0xFF then
                if e.m14 &&& 0x3F = 0 then
                  match common e 6 with
                  | (e, true) => (e, 0x306)
                  | (e, false) => (e, storeRead e.data (0x2C34 + (e.m14 &&& 0x7F)))
                else
                  match common e 4 with
                  | (e, true) => (e, 0x306)
                  | (e, false) => (e, storeRead e.data (0x2D34 + (e.m14 &&& 0xFF)))
              else (e, result)
          match step with
          | (e, 0x306) => (e, 0x306)
          | (e, result) =>
              match common e (storeRead e.data (0x2FB4 + result)) with
              | (e, true) => (e, 0x306)
              | (e, false) => (e, result)

/-- Embedding of `legacyDecoder.function2`: decode a back-reference
distance for a match of the given length; 0 signals underrun. -/
def function2 (e : Esi) (length : Nat) : Esi × Nat :=
  let tmp := storeRead e.data (0x2A34 + (e.m14 &&& 0xff))
  match common e (storeRead e.data (0x30B4 + tmp)) with
  | (e, true) => (e, 0)
  | (e, false) =>
      if length ≠ 2 then
        let tmp2 := (tmp <<< u8 e.m0C) ||| (e.m14 &&& e.m10)
        match common e e.m0C with
        | (e, true) => (e, 0)
        | (e, false) => (e, tmp2 + 1)
      else
        let tmp2 := (tmp <<< 2) ||| (e.m14 &&& 3)
        match common e 2 with
        | (e, true) => (e, 0)
        | (e, false) => (e, tmp2 + 1)

/-- Back-reference copy loop of `repChunk`: `length` bytes copied forward
from `distance` back in the dictionary. -/
def matchCopy : Nat → Nat → Esi → Esi
  | 0, _, e => e
  | n + 1, dist, e =>
      let v := storeRead e.data (0x30 + e.m08 - dist)
      matchCopy n dist
        { e with
            data := storeWrite e.data (0x30 + e.m08) v
            m08 := e.m08 + 1 }

/-- Dictionary-buffer flush of `repChunk`: when the write offset reaches
0x2000, flush the low 0x1000 bytes and slide the rest down. -/
def chunkFlush (e : Esi) : Esi :=
  if e.m08 < 0x2000 then e
  else
    let e2 := esi2C e 0x1030 0x1000
    { e2 with
        data := copyFn e2.data 0x30 e2.data 0x1030 (e2.m08 - 0x1000)
        m08 := e2.m08 - 0x1000 }

/-- Per-symbol loop of `legacyDecoder.repChunk`; returns the terminating
length code (`0x305` end marker or `0x306` underrun/bad distance) with
the state before the final flush.  `none` models a Go panic (negative
dictionary index from an overlong distance) or fuel exhaustion. -/
def repChunkLoop : Nat → Esi → Option (Esi × Nat)
  | 0, _ => none
  | fuel + 1, e =>
      match function1 e with
      | (e, length) =>
          if length ≥ 0x305 then some (e, length)
          else if length ≥ 0x100 then
            let len2 := length - 0xFE
            match function2 e len2 with
            | (e, 0) => some (e, 0x306)
            | (e, dist) =>
                if 0x30 + e.m08 < dist then none
                else repChunkLoop fuel (chunkFlush (matchCopy len2 dist e))
          else
            repChunkLoop fuel (chunkFlush
              { e with
                  data := storeWrite e.data (0x30 + e.m08) length
                  m08 := e.m08 + 1 })

/-- Embedding of `legacyDecoder.repChunk`: run the symbol loop from write
offset 0x1000 and flush the remainder; the terminating length code is
returned to the caller (which ignores it). -/
def repChunk (fuel : Nat) (e : Esi) : Option (Esi × Nat) :=
  match repChunkLoop fuel { e with m08 := 0x1000 } with
  | none => none
  | some (e2, length) => some (esi2C e2 0x1030 (e2.m08 - 0x1000), length)

/-- Inner fill loop of `legacyDecoder.com1`: write code value `n` at every
position `x, x+y, ...` below 0x100 (0x101 fuel strictly exceeds the
worst-case 0x100 steps of the source loop). -/
def com1Inner : Nat → Nat → Nat → Nat → Nat → Store → Store
  | 0, _, _, _, _, data => data
  | fuel + 1, x, y, dstPos, n, data =>
      if x < 0x100 then
        com1Inner fuel (x + y) y dstPos n (storeWrite data (dstPos + x) n)
      else data

/-- Embedding of `legacyDecoder.com1`: canonical fill, iterating the code
index from `strlen - 1` down to 0. -/
def com1Steps : Nat → Store → Nat → List Nat → Nat → Store
  | 0, data, _, _, _ => data
  | k + 1, data, srcPos, str, dstPos =>
      let x := u8 (str.getD k 0)
      let y := 1 <<< (storeRead data (srcPos + k))
      com1Steps k (com1Inner 0x101 x y dstPos k data) srcPos str dstPos

/-- Table setup of `repSection`: the five fixed-table copies and the two
canonical fills (length alphabet into 0x2B34, distance alphabet into
0x2A34). -/
def repTablesData (data : Store) : Store :=
  let d1 := writeList data 0x30F4 off5071D0
  let d2 := com1Steps 0x10 d1 0x30F4 off5071E0 0x2B34
  let d3 := writeList d2 0x3104 off5071A0
  let d4 := writeList d3 0x3114 off5071B0
  let d5 := writeList d4 0x30B4 off507120
  com1Steps 0x40 d5 0x30B4 off507160 0x2A34

/-- Chunk-header state of `repSection`: staged source bytes, mode and
dictionary-size-class fields read from the chunk's first 3 bytes. -/
def repSectionSetup (e : Esi) : Esi :=
  let r := esi28 { e with m1C := 0x800 } 0x2234 0x800
  let e1 := { r.1 with m20 := r.2 }
  { e1 with
      m04 := u8 (e1.repSrc.getD 0 0)
      m0C := u8 (e1.repSrc.getD 1 0)
      m14 := u8 (e1.repSrc.getD 2 0)
      m18 := 0
      m1C := 3 }

/-- Chunk state of `repSection` right before `repChunk` runs: header
fields set, match mask `m10` computed, derived tables built. -/
def repSectionReady (e : Esi) : Esi :=
  let e2 := repSectionSetup e
  let e3 := { e2 with m10 := (1 <<< e2.m0C) - 1 }
  { e3 with data := repTablesData e3.data }

/-- Embedding of `legacyDecoder.repSection`: stage the source, validate
the chunk header (3 = short source, 1 = bad dictionary size class,
2 = unsupported ASCII mode), build the derived tables, run `repChunk`,
and return 0 — the length code returned by `repChunk` is discarded. -/
def repSection (fuel : Nat) (e : Esi) : Option (Esi × Nat) :=
  let e2 := repSectionSetup e
  if e2.m20 ≤ 4 then some (e2, 3)
  else if e2.m0C < 4 ∨ 6 < e2.m0C then some (e2, 1)
  else
    let e3 := { e2 with m10 := (1 <<< e2.m0C) - 1 }
    if e3.m04 ≠ 0 then some (e3, 2)
    else
      match repChunk fuel (repSectionReady e) with
      | none => none
      | some (e5, _) => some (e5, 0)

/-- Read of `n` raw bytes from the decoder's input stream
(`io.ReadFull`). -/
def readBytes (s : List Nat) (n : Nat) : Option (List Nat × List Nat) :=
  if n ≤ s.length then some ((s.take n).map u8, s.drop n) else none

/-- Write of a byte list into the result buffer at an offset, preserving
the buffer length (Go `copy` into `result[off : off+len]`). -/
def setRange (l : List Nat) (pos : Nat) (src : List Nat) : List Nat :=
  l.take pos ++ (src.take (l.length - pos)) ++ l.drop (pos + src.length)

/-- Outcome of `legacyDecoder.Section`: decompressed bytes, the
mismatched-section error, an input-stream underrun (an `io` error), or a
propagated panic. -/
inductive SectionOutcome where
  | ok (data : List Nat)
  | mismatched
  | ioErr
  | panicked
  deriving DecidableEq, Repr

/-- Loop state of the per-chunk loop of `legacyDecoder.Section` (the
local variables `m1C`, `m20`, `length2`, `resultOffset` and the shared
`d.buf` output buffer, which aliases `rep.m08`). -/
structure ChunkLoopState where
  stream : List Nat
  buf : Store
  result : List Nat
  resultOffset : Nat
  m1C : Nat
  m20 : Nat
  length2 : Nat
  esi : Esi

/-- Embedding of the per-chunk loop of `legacyDecoder.Section`: read the
compressed length and bytes of each chunk, pass stored chunks through,
decompress the rest with `repSection`, and accept the flushed output
when its length is nonzero and within the section size. -/
def legacyChunksLoop (fuel size : Nat) : Nat → ChunkLoopState → SectionOutcome
  | 0, st => .ok st.result
  | n + 1, st =>
      match readInt32 st.stream with
      | none => .ioErr
      | some (length, s1) =>
          if (length : Int) > (size : Int) - (st.m20 : Int) then .mismatched
          else if st.result.length < st.resultOffset + length then .panicked
          else
            match readBytes s1 length with
            | none => .ioErr
            | some (chunk, s2) =>
                let result2 := setRange st.result st.resultOffset chunk
                if (length : Int) = min ((size : Int) - (st.m1C : Int)) 0x2000 then
                  legacyChunksLoop fuel size n
                    { st with
                        stream := s2
                        result := result2
                        m1C := st.m1C + 0x2000
                        m20 := st.m20 + st.length2 }
                else
                  let esi : Esi :=
                    { st.esi with
                        repSrc := chunk
                        repM04 := 0
                        repM08 := st.buf
                        repM0C := 0
                        repM10 := length
                        repM14 := 0x2000 }
                  match repSection fuel esi with
                  | none => .panicked
                  | some (esi2, code) =>
                      let length2 :=
                        if code = 0 ∧ esi2.repM0C ≤ 0x2000 then esi2.repM0C else 0
                      if length2 = 0 ∨ size < length2 then .mismatched
                      else
                        let result3 := setRange result2 st.resultOffset
                          ((List.range length2).map (storeRead esi2.repM08))
                        legacyChunksLoop fuel size n
                          { stream := s2
                            buf := esi2.repM08
                            result := result3
                            resultOffset := st.resultOffset + length2
                            m1C := st.m1C + 0x2000
                            m20 := st.m20 + length2
                            length2 := length2
                            esi := esi2 }

/-- Embedding of `legacyDecoder.Section` for one call on a fresh decoder
(zeroed `esi`, zeroed 0x2000-byte buffer): section header (checksum and
chunk count), then the chunk loop filling a zeroed result of the
declared size. -/
def legacySection (fuel size : Nat) (stream : List Nat) : SectionOutcome :=
  if size = 0 then .ok []
  else
    match readInt32 stream with
    | none => .ioErr
    | some (_, s1) =>
        match readInt32 s1 with
        | none => .ioErr
        | some (count, s2) =>
            legacyChunksLoop fuel size count
              { stream := s2
                buf := []
                result := List.replicate size 0
                resultOffset := 0
                m1C := 0
                m20 := 0
                length2 := 0
                esi := {} }

/-- Concrete compressed legacy chunk hitting a source underrun after one
decoded literal: binary mode (byte 0), dictionary size class 4, then bit
stream bytes 0x00, 0x01, 0x00 — the first literal (value 0x80) consumes
the staged bytes and the refill for the second literal underruns. -/
def underrunChunk : List Nat := [0, 4, 0, 1, 0]

/-- Concrete section stream around `underrunChunk`: checksum 0, chunk
count 1, compressed length 5, then the chunk bytes (declared section
size 100). -/
def underrunStream : List Nat :=
  [0, 0, 0, 0, 1, 0, 0, 0, 5, 0, 0, 0] ++ underrunChunk

/-- Per-chunk decoder state for `underrunChunk` on a fresh legacy
decoder (the `rep` field assembly of `legacyDecoder.Section`). -/
def underrunChunkEsi : Esi :=
  { repSrc := underrunChunk
    repM04 := 0
    repM08 := []
    repM0C := 0
    repM10 := 5
    repM14 := 0x2000 }

/-- Chunk-loop state of `legacyDecoder.Section` on `underrunStream`
right after the section header was read (section size 100, 1 chunk). -/
def underrunLoopState : ChunkLoopState :=
  { stream := [5, 0, 0, 0] ++ underrunChunk
    buf := []
    result := List.replicate 100 0
    resultOffset := 0
    m1C := 0
    m20 := 0
    length2 := 0
    esi := {} }

/-- Concrete 2-player replay whose saver (player 1) also has a recorded
leave-game command: 2 non-observer humans on teams 1 and 2, leave-game
commands from player 1 then player 2, replay saver inferred as player 1. -/
def saverLeaveExample : WReplay :=
  { players := [⟨1, 1, .human, false⟩, ⟨2, 2, .human, false⟩]
    leaveGamePIDs := [1, 2]
    repSaverPlayerID := some 1 }

end Screp

/-! # Theorems -/

/-! ## Claim C2 -/

namespace Screp

/-- Claim C2 (confirmed): for a buffer of at least 30 bytes, format
detection classifies Modern121 exactly when byte 12 is the ASCII letter
s (0x73); otherwise Modern exactly when byte 28 is 0x78 and Legacy
exactly when it is not.  For a buffer of fewer than 30 bytes the
detected format is Unknown. -/
theorem detectRepFormat_spec (b : List Nat) :
    (30 ≤ b.length →
      (detectRepFormat b = .modern121 ↔ b.getD 12 0 = 0x73) ∧
      (b.getD 12 0 ≠ 0x73 →
        (detectRepFormat b = .modern ↔ b.getD 28 0 = 0x78) ∧
        (detectRepFormat b = .legacy ↔ b.getD 28 0 ≠ 0x78))) ∧
    (b.length < 30 → detectRepFormat b = .unknown) := by
  constructor
  · intro h30
    have hnl : ¬ b.length < 30 := by omega
    unfold detectRepFormat
    rw [if_neg hnl]
    refine ⟨?_, fun h12 => ?_⟩
    · split_ifs with h12 h28
      · exact iff_of_true rfl h12
      · exact iff_of_false (by simp) h12
      · exact iff_of_false (by simp) h12
    · rw [if_neg h12]
      split_ifs with h28
      · exact ⟨iff_of_false (by simp) h28, iff_of_true rfl h28⟩
      · exact ⟨iff_of_true rfl (not_not.mp h28),
          iff_of_false (by simp) (fun hn => hn (not_not.mp h28))⟩
  · intro hlt
    unfold detectRepFormat
    rw [if_pos hlt]

/-- Witness for C2: a concrete 30-byte buffer whose byte 12 is 0x73 is
classified Modern121, and a concrete 2-byte buffer is classified
Unknown. -/
theorem detectRepFormat_spec_witness :
    detectRepFormat
      [0, 0, 0, 0, 0, 0, 0, 0, 0, 0, 0, 0, 0x73, 0, 0, 0,
       0, 0, 0, 0, 0, 0, 0, 0, 0, 0, 0, 0, 0, 0] = .modern121 ∧
    detectRepFormat [1, 2] = .unknown := by
  constructor
  · exact ((detectRepFormat_spec _).1 (by decide)).1.mpr (by decide)
  · exact (detectRepFormat_spec _).2 (by decide)

/-! ## Claim C8 -/

/-- Claim C8 as stated is false: it asserts the index accessor returns the
low 12 bits of the tag, but `UnitTag.Index` masks with `0x7ff`, keeping
only the low 11 bits.  At tag `0x800` the code returns 0 while the low
12 bits are `0x800`. -/
theorem unitTag_claim_counterexample :
    ¬ (∀ t : Nat, t < 65536 →
        unitTagIndex t = t % 4096 ∧
        unitTagRecycle t = t / 4096 ∧
        (unitTagValid t = true ↔ t ≠ 0xffff)) := by
  intro h
  have h8 := (h 0x800 (by decide)).1
  exact absurd h8 (by decide)

/-- Claim C8 (amended): for every 16-bit tag value `t`, the index accessor
returns the low 11 bits of `t` (mask `0x7ff`), the recycle accessor
returns the top 4 bits of `t`, and `t` is reported valid exactly when it
is not `0xFFFF`. -/
theorem unitTag_spec (t : Nat) (ht : t < 65536) :
    unitTagIndex t = t % 2048 ∧
    unitTagRecycle t = t / 4096 ∧
    (unitTagValid t = true ↔ t ≠ 0xffff) := by
  have h16 : u16 t = t := Nat.mod_eq_of_lt ht
  refine ⟨?_, ?_, ?_⟩
  · have : (0x7ff : Nat) = 2 ^ 11 - 1 := by decide
    rw [unitTagIndex, h16, this, Nat.and_pow_two_sub_one_eq_mod]
  · have hsh : t >>> 12 = t / 4096 := by
      rw [Nat.shiftRight_eq_div_pow]
    have hlt : t / 4096 < 256 := by omega
    rw [unitTagRecycle, h16, u8, hsh, Nat.mod_eq_of_lt hlt]
  · rw [unitTagValid, h16]
    simp

/-- Witness for C8: evaluation of the amended claim at the concrete tag
`0x1234`. -/
theorem unitTag_spec_witness :
    unitTagIndex 0x1234 = 0x1234 % 2048 ∧
    unitTagRecycle 0x1234 = 0x1234 / 4096 ∧
    (unitTagValid 0x1234 = true ↔ (0x1234 : Nat) ≠ 0xffff) :=
  unitTag_spec 0x1234 (by decide)

/-! ## Claim C7 -/

/-- Claim C7 as stated is false: it asserts the extra 4-byte length field
of Modern121 replays is consumed immediately before the 3rd section, but
`decoder.NewSection` reads it on the call that makes `sectionsCounter`
equal to 2, i.e. before the 2nd section.  On the call entering the 3rd
section (counter going from 2 to 3) nothing is consumed. -/
theorem NewSection_claim_counterexample :
    ¬ (∀ s : List Nat, 4 ≤ s.length →
        newSectionConsumed ⟨.modern121, 2, s⟩ = some 4) := by
  intro h
  exact absurd (h [9, 9, 9, 9] (by decide)) (by decide)

/-- Claim C7 (amended): for Modern121 replays (and only those), the framer
consumes and discards exactly one extra 4-byte length field on the
`NewSection` call made before reading the 2nd section (the call that
makes the sections counter 2); every other successful `NewSection` call,
in every format, consumes nothing. -/
theorem NewSection_spec (d : DecoderState) :
    (d.rf = .modern121 → d.sectionsCounter = 1 → 4 ≤ d.stream.length →
      NewSection d =
        .ok ⟨.modern121, 2, d.stream.drop 4⟩ ∧ newSectionConsumed d = some 4) ∧
    (d.rf = .modern121 → d.sectionsCounter ≠ 1 →
      NewSection d = .ok ⟨.modern121, d.sectionsCounter + 1, d.stream⟩ ∧
      newSectionConsumed d = some 0) ∧
    (d.rf = .modern ∨ d.rf = .unknown →
      NewSection d = .ok ⟨d.rf, d.sectionsCounter + 1, d.stream⟩ ∧
      newSectionConsumed d = some 0) ∧
    (d.rf = .legacy → d.sectionsCounter + 1 ≠ 5 →
      NewSection d = .ok ⟨.legacy, d.sectionsCounter + 1, d.stream⟩ ∧
      newSectionConsumed d = some 0) ∧
    (d.rf = .legacy → d.sectionsCounter + 1 = 5 →
      NewSection d = .noMoreSections) := by
  obtain ⟨rf, n, s⟩ := d
  dsimp only
  refine ⟨?_, ?_, ?_, ?_, ?_⟩
  · rintro rfl rfl hlen
    match s, hlen with
    | b0 :: b1 :: b2 :: b3 :: rest, _ =>
      refine ⟨?_, ?_⟩ <;> simp [NewSection, newSectionConsumed, readInt32]
      omega
  · rintro rfl hn
    have h2 : ¬ (n + 1 = 2) := by omega
    constructor <;> simp [NewSection, newSectionConsumed, h2]
  · rintro (rfl | rfl) <;> constructor <;> simp [NewSection, newSectionConsumed]
  · rintro rfl hn
    constructor <;> simp [NewSection, newSectionConsumed, hn]
  · rintro rfl hn
    simp [NewSection, hn]

/-- Witness for C7: concrete Modern121 decoder states around the 2nd and
3rd sections, and a concrete legacy state reaching the 5th section. -/
theorem NewSection_spec_witness :
    (NewSection ⟨.modern121, 1, [7, 0, 0, 0, 5]⟩ =
        .ok ⟨.modern121, 2, [5]⟩ ∧
      newSectionConsumed ⟨.modern121, 1, [7, 0, 0, 0, 5]⟩ = some 4) ∧
    newSectionConsumed ⟨.modern121, 2, [7, 0, 0, 0, 5]⟩ = some 0 ∧
    NewSection ⟨.legacy, 4, []⟩ = .noMoreSections :=
  ⟨(NewSection_spec _).1 rfl rfl (by decide),
   ((NewSection_spec ⟨.modern121, 2, [7, 0, 0, 0, 5]⟩).2.1 rfl (by decide)).2,
   (NewSection_spec _).2.2.2.2 rfl (by decide)⟩

/-! ## Claim C10 -/

/-- Length is preserved by the FFA team assignment. -/
theorem assignTeamsFFA_length (l : List HPlayer) :
    ∀ i, (assignTeamsFFA i l).length = l.length := by
  induction l with
  | nil => intro i; rfl
  | cons p rest ih =>
      intro i
      simp [assignTeamsFFA, ih]

/-- Enumeration description of the FFA team assignment loop. -/
theorem assignTeamsFFA_eq (l : List HPlayer) :
    ∀ i, assignTeamsFFA i l =
      (List.enumFrom i l).map (fun x => { x.2 with team := u8 (x.1 + 1) }) := by
  induction l with
  | nil => intro i; rfl
  | cons p rest ih =>
      intro i
      simp [assignTeamsFFA, List.enumFrom, ih (i + 1)]

/-- Claim C10 (confirmed): header parsing rewrites the team bytes read
from the file exactly as claimed: melee or one-on-one with exactly two
named players on equal teams gets teams 1 and 2; free-for-all assigns
the i-th named player (0-based, slot order) team `i+1` (as a byte); all
other cases keep the team bytes as read. -/
theorem parseHeaderTeams_spec (typ : GameType) (slots : List HPlayer) :
    (∀ p0 p1, origPlayers slots = [p0, p1] →
      (typ = .melee ∨ typ = .oneOnOne) → p0.team = p1.team →
      parseHeaderTeams typ slots = [{ p0 with team := 1 }, { p1 with team := 2 }]) ∧
    (typ = .ffa →
      parseHeaderTeams typ slots =
        (List.enumFrom 0 (origPlayers slots)).map
          (fun x => { x.2 with team := u8 (x.1 + 1) })) ∧
    (typ ≠ .ffa →
      ¬ ((typ = .melee ∨ typ = .oneOnOne) ∧ (origPlayers slots).length = 2 ∧
          ((origPlayers slots).getD 0 default).team =
            ((origPlayers slots).getD 1 default).team) →
      parseHeaderTeams typ slots = origPlayers slots) := by
  refine ⟨?_, ?_, ?_⟩
  · intro p0 p1 horig htyp hteam
    have hffa : typ ≠ .ffa := by rcases htyp with rfl | rfl <;> decide
    simp only [parseHeaderTeams, rewriteTeams, horig]
    rw [if_neg hffa]
    rw [if_pos (show (typ = GameType.melee ∨ typ = GameType.oneOnOne) ∧
        ([p0, p1] : List HPlayer).length = 2 ∧
        (([p0, p1] : List HPlayer).getD 0 default).team =
          (([p0, p1] : List HPlayer).getD 1 default).team from ⟨htyp, rfl, hteam⟩)]
    rfl
  · rintro rfl
    simp only [parseHeaderTeams, rewriteTeams]
    simp only [if_true]
    have hc : ¬ ((GameType.ffa = GameType.melee ∨ GameType.ffa = GameType.oneOnOne) ∧
        (origPlayers slots).length = 2 ∧
        ((origPlayers slots).getD 0 default).team =
          ((origPlayers slots).getD 1 default).team) := by
      rintro ⟨h | h, -, -⟩ <;> simp at h
    rw [if_neg hc, assignTeamsFFA_eq]
  · intro hffa hnot
    simp only [parseHeaderTeams, rewriteTeams]
    rw [if_neg hffa, if_neg hnot]

/-- Witness for C10: a concrete melee slot list with two equally teamed
named players is rewritten to teams 1 and 2. -/
theorem parseHeaderTeams_spec_witness :
    parseHeaderTeams .melee
      [⟨[65], 0, 0⟩, ⟨[], 0, 1⟩, ⟨[66], 0, 2⟩] =
      [⟨[65], 1, 0⟩, ⟨[66], 2, 2⟩] := by
  have h := (parseHeaderTeams_spec .melee
    [⟨[65], 0, 0⟩, ⟨[], 0, 1⟩, ⟨[66], 0, 2⟩]).1
    ⟨[65], 0, 0⟩ ⟨[66], 0, 2⟩ (by decide) (Or.inl rfl) rfl
  exact h

/-! ## Claim C9 -/

/-- Counting helper for observer detection: with all observer flags
initially false, the players left unflagged plus the players matching
the criteria add up to the whole list. -/
theorem detectObservers_count (prof : ObsProfile) :
    ∀ ps : List ObsPlayer, (∀ p ∈ ps, p.observer = false) →
      ((ps.map (fun p =>
          if obsCriteria prof p then { p with observer := true } else p)).countP
            (fun p => !p.observer)) + ps.countP (obsCriteria prof) = ps.length := by
  intro ps
  induction ps with
  | nil => intro _; rfl
  | cons a rest ih =>
      intro h0
      have ha : a.observer = false := h0 a (by simp)
      have hrest := ih (fun p hp => h0 p (by simp [hp]))
      by_cases hc : obsCriteria prof a <;>
        simp [List.countP_cons, List.countP_map, hc, ha] at hrest ⊢ <;> omega

/-- Claim C9 (confirmed): for every game whose players start with no
observer flags and list at least 2 non-computer players, observer
detection leaves at least 2 players unflagged: when the criteria would
leave fewer than 2 non-observers, all observer flags are reset. -/
theorem detectObservers_spec (prof : ObsProfile) (ps : List ObsPlayer)
    (h0 : ∀ p ∈ ps, p.observer = false)
    (h2 : 2 ≤ (ps.filter (fun p => p.ptype ≠ .computer)).length) :
    2 ≤ (detectObservers prof ps).countP (fun p => !p.observer) := by
  have hlen2 : 2 ≤ ps.length := le_trans h2 (List.length_filter_le _ _)
  have hcount := detectObservers_count prof ps h0
  rw [detectObservers]
  split_ifs with hundo
  · have hall : ∀ q ∈ (ps.map (fun p =>
        if obsCriteria prof p then { p with observer := true } else p)).map
          (fun p => { p with observer := false }), (!q.observer) = true := by
      intro q hq
      simp only [List.mem_map] at hq
      obtain ⟨q2, _, rfl⟩ := hq
      rfl
    rw [List.countP_eq_length.mpr hall]
    simpa using hlen2
  · have hcrit : ps.countP (obsCriteria prof) ≤ ps.length :=
      List.countP_le_length _
    omega

/-! ## Claim C1 -/

/-- Claim C1 (confirmed): when the command decoder meets a command whose
type ID is not in the dispatch table, it appends exactly one ParseError
record whose back-reference is the previously decoded command (absent
when there is none), leaves the decoded command list untouched, skips to
the end of the current frame's command block, and continues the outer
frame loop from that block end exactly as it would on any block
boundary — so well-formed commands of subsequent frames are decoded
normally from a state independent of the skipped bytes. -/
theorem parseCommands_unknown_resync
    (fuel : Nat) (sr sr1 sr2 sr3 srT : SliceReader)
    (cmds : List Cmd) (pecs : List ParseErrCmd)
    (frame blockSize playerID typeID endPos : Nat)
    (hguard : sr.pos < u32 sr.b.length)
    (hframe : getUint32 sr = some (frame, sr1))
    (hsize : getByte sr1 = some (blockSize, sr2))
    (hend : endPos = u32 (sr2.pos + blockSize))
    (hinblock : sr2.pos < endPos)
    (hpid : getByte sr2 = some (playerID, sr3))
    (htid : getByte sr3 = some (typeID, srT))
    (hunk : decodePayload typeID srT = .unknown) :
    parseCmdsLoop (fuel + 3) sr cmds pecs =
      (parseCmdsLoop (fuel + 2) { srT with pos := endPos } cmds
          (pecs ++ [⟨⟨frame, playerID, typeID⟩, cmds.getLast?⟩])).map
        (fun out => (out.1, out.2.1, frame :: out.2.2)) := by
  have hblock : parseFrameBlock (fuel + 2) frame endPos sr2 cmds pecs =
      some ({ srT with pos := endPos }, cmds,
        pecs ++ [⟨⟨frame, playerID, typeID⟩, cmds.getLast?⟩]) := by
    rw [show fuel + 2 = (fuel + 1) + 1 from rfl, parseFrameBlock]
    rw [if_pos hinblock]
    simp only [hpid, htid, hunk]
    rw [parseFrameBlock]
    simp
  rw [show fuel + 3 = (fuel + 2) + 1 from rfl, parseCmdsLoop]
  rw [if_pos hguard]
  simp only [hframe, hsize]
  simp only [← hend, hblock]
  cases parseCmdsLoop (fuel + 2) { srT with pos := endPos } cmds
      (pecs ++ [⟨⟨frame, playerID, typeID⟩, cmds.getLast?⟩]) with
  | none => rfl
  | some out => rfl

/-- Witness for C1: the resynchronization theorem applied to the concrete
scenario buffer (unknown type at frame 50 in the initial state of the
decode), plus the end-to-end decode of that buffer: exactly one
ParseError record with no predecessor, and the frame-51 Hotkey command
decoded with its correct type. -/
theorem parseCommands_unknown_resync_witness :
    (parseCmdsLoop 21 ⟨resyncScenario, 0⟩ [] [] =
      (parseCmdsLoop 20 ⟨resyncScenario, 10⟩ []
          [⟨⟨50, 0, 0xff⟩, none⟩]).map
        (fun out => (out.1, out.2.1, 50 :: out.2.2))) ∧
    parseCommands resyncScenario =
      some ([⟨⟨51, 1, 0x13⟩, .hotkey 0 2⟩], [⟨⟨50, 0, 0xff⟩, none⟩], [50, 51]) := by
  constructor
  · exact parseCommands_unknown_resync 18
      ⟨resyncScenario, 0⟩ ⟨resyncScenario, 4⟩ ⟨resyncScenario, 5⟩
      ⟨resyncScenario, 6⟩ ⟨resyncScenario, 7⟩ [] [] 50 5 0 0xff 10
      (by decide) (by decide) (by decide) (by decide) (by decide)
      (by decide) (by decide) (by decide)
  · decide

/-! ## Claim C3 -/

/-- Commands appended by one frame-block decode all carry that block's
frame number, and the block only appends to the command list. -/
theorem parseFrameBlock_cmds (fuel : Nat) :
    ∀ frame endPos sr cmds pecs sr2 cmds2 pecs2,
      parseFrameBlock fuel frame endPos sr cmds pecs = some (sr2, cmds2, pecs2) →
      ∃ Δ, cmds2 = cmds ++ Δ ∧ ∀ c ∈ Δ, c.base.frame = frame := by
  induction fuel with
  | zero =>
      intro frame endPos sr cmds pecs sr2 cmds2 pecs2 h
      simp [parseFrameBlock] at h
  | succ n ih =>
      intro frame endPos sr cmds pecs sr2 cmds2 pecs2 h
      rw [parseFrameBlock] at h
      split at h
      · split at h
        · exact absurd h (by simp)
        · split at h
          · exact absurd h (by simp)
          · split at h
            · obtain ⟨Δ, hΔ, hf⟩ := ih _ _ _ _ _ _ _ _ h
              exact ⟨Δ, hΔ, hf⟩
            · exact absurd h (by simp)
            · obtain ⟨Δ, hΔ, hf⟩ := ih _ _ _ _ _ _ _ _ h
              rw [List.append_assoc] at hΔ
              refine ⟨_, hΔ, ?_⟩
              intro c hc
              rcases List.mem_append.mp hc with hc1 | hc2
              · rcases List.mem_singleton.mp hc1 with rfl
                rfl
              · exact hf c hc2
      · simp only [Option.some.injEq, Prod.mk.injEq] at h
        obtain ⟨-, h2, -⟩ := h
        exact ⟨[], by rw [← h2, List.append_nil], by simp⟩

/-- Lists of all-equal naturals are chains of `≤`. -/
theorem pairwise_le_of_all_eq {l : List Nat} {v : Nat}
    (h : ∀ x ∈ l, x = v) : l.Pairwise (· ≤ ·) := by
  induction l with
  | nil => exact List.Pairwise.nil
  | cons a rest ih =>
      refine List.Pairwise.cons (fun b hb => ?_) (ih (fun x hx => h x (by simp [hx])))
      rw [h a (by simp), h b (by simp [hb])]

/-- Structure of the outer frame loop: commands are only appended, each
command's frame is one of the block frames read from the buffer, and
when the block frames are non-decreasing, so are the frames of the
appended commands. -/
theorem parseCmdsLoop_frames (fuel : Nat) :
    ∀ sr cmds pecs cmds2 pecs2 frames,
      parseCmdsLoop fuel sr cmds pecs = some (cmds2, pecs2, frames) →
      ∃ Δ, cmds2 = cmds ++ Δ ∧ (∀ c ∈ Δ, c.base.frame ∈ frames) ∧
        (frames.Pairwise (· ≤ ·) →
          (Δ.map (fun c => c.base.frame)).Pairwise (· ≤ ·)) := by
  induction fuel with
  | zero =>
      intro sr cmds pecs cmds2 pecs2 frames h
      simp [parseCmdsLoop] at h
  | succ n ih =>
      intro sr cmds pecs cmds2 pecs2 frames h
      rw [parseCmdsLoop] at h
      split at h
      · split at h
        · exact absurd h (by simp)
        · split at h
          · exact absurd h (by simp)
          · rename_i x1 frame sr1 hga x2 blockSize sr2 hgb
            simp only at h
            rcases hfb : parseFrameBlock n frame (u32 (sr2.pos + blockSize)) sr2 cmds pecs
              with _ | ⟨sr3, cmdsB, pecsB⟩
            · rw [hfb] at h
              exact absurd h (by simp)
            rw [hfb] at h
            simp only at h
            rcases hrec : parseCmdsLoop n { sr3 with pos := u32 (sr2.pos + blockSize) }
                cmdsB pecsB with _ | ⟨cmdsF, pecsF, framesR⟩
            · rw [hrec] at h
              exact absurd h (by simp)
            rw [hrec] at h
            simp only [Option.some.injEq, Prod.mk.injEq] at h
            obtain ⟨rfl, rfl, rfl⟩ : cmdsF = cmds2 ∧ pecsF = pecs2 ∧ frame :: framesR = frames := by
              exact ⟨h.1, h.2.1, h.2.2⟩
            obtain ⟨Δ1, hΔ1, hf1⟩ := parseFrameBlock_cmds n _ _ _ _ _ _ _ _ hfb
            obtain ⟨Δ2, hΔ2, hmem2, hpw2⟩ := ih _ _ _ _ _ _ hrec
            refine ⟨Δ1 ++ Δ2, ?_, ?_, ?_⟩
            · rw [hΔ2, hΔ1, List.append_assoc]
            · intro c hc
              rcases List.mem_append.mp hc with hc1 | hc2
              · rw [hf1 c hc1]; exact List.mem_cons_self _ _
              · exact List.mem_cons_of_mem _ (hmem2 c hc2)
            · intro hpw
              have hcons := List.pairwise_cons.mp hpw
              rw [List.map_append]
              refine List.pairwise_append.mpr ⟨?_, hpw2 hcons.2, ?_⟩
              · exact pairwise_le_of_all_eq (fun x hx => by
                  obtain ⟨c, hc, rfl⟩ := List.mem_map.mp hx
                  exact hf1 c hc)
              · intro x hx y hy
                obtain ⟨c, hc, rfl⟩ := List.mem_map.mp hx
                obtain ⟨d, hd, rfl⟩ := List.mem_map.mp hy
                rw [hf1 c hc]
                exact hcons.1 _ (hmem2 d hd)
      · simp only [Option.some.injEq, Prod.mk.injEq] at h
        obtain ⟨h1, h2, h3⟩ := h
        refine ⟨[], by rw [← h1, List.append_nil], ?_, by simp⟩
        intro c hc
        exact absurd hc (by simp)

/-- Claim C3 as stated is false: the decoder reads frame numbers straight
from the buffer and does not enforce monotonicity.  A buffer encoding a
frame-1 block followed by a frame-0 block decodes successfully into a
command sequence whose frames are 1 then 0, which is decreasing. -/
theorem parseCommands_claim_counterexample :
    parseCommands [1, 0, 0, 0, 2, 9, 5, 0, 0, 0, 0, 2, 9, 5] =
      some ([⟨⟨1, 9, 5⟩, .base⟩, ⟨⟨0, 9, 5⟩, .base⟩], [], [1, 0]) ∧
    ¬ (([⟨⟨1, 9, 5⟩, .base⟩, ⟨⟨0, 9, 5⟩, .base⟩] : List Cmd).map
        (fun c => c.base.frame)).Pairwise (· ≤ ·) := by
  refine ⟨by decide, by decide⟩

/-- Claim C3 (amended): every decoded command carries the frame number of
its enclosing block and commands are emitted in encounter order; hence
whenever the frame numbers of the buffer's successive blocks are
non-decreasing (as in real replays), the Frame values of the decoded
command sequence are monotonically non-decreasing.  The decoder itself
does not enforce this ordering. -/
theorem parseCommands_frames_spec (data : List Nat)
    (cmds : List Cmd) (pecs : List ParseErrCmd) (frames : List Nat)
    (h : parseCommands data = some (cmds, pecs, frames))
    (hmono : frames.Pairwise (· ≤ ·)) :
    (cmds.map (fun c => c.base.frame)).Pairwise (· ≤ ·) := by
  obtain ⟨Δ, hΔ, _, hpw⟩ := parseCmdsLoop_frames _ _ _ _ _ _ _ h
  rw [hΔ, List.nil_append]
  exact hpw hmono

/-- Witness for C3: the amended claim at the concrete scenario buffer,
whose block frames 50, 51 are non-decreasing. -/
theorem parseCommands_frames_spec_witness :
    (([⟨⟨51, 1, 0x13⟩, .hotkey 0 2⟩] : List Cmd).map
      (fun c => c.base.frame)).Pairwise (· ≤ ·) :=
  parseCommands_frames_spec resyncScenario
    [⟨⟨51, 1, 0x13⟩, .hotkey 0 2⟩] [⟨⟨50, 0, 0xff⟩, none⟩] [50, 51]
    (by decide) (by decide)

/-! ## Claim C6 -/

set_option maxRecDepth 10000 in
/-- Claim C6 as stated is false: on `underrunChunk` the bit stream is
exhausted while more bits are requested — the symbol loop terminates
with the 0x306 underrun marker — yet `repSection` discards that code and
reports success (0), and the section decoder returns the partially
decompressed data (one flushed byte, value 128, ahead of the residual
compressed bytes) as success instead of the mismatched-section error. -/
theorem legacy_underrun_claim_counterexample :
    (repChunk 200 (repSectionReady underrunChunkEsi)).map Prod.snd = some 0x306 ∧
    (repSection 200 underrunChunkEsi).map Prod.snd = some 0 ∧
    legacySection 200 100 underrunStream =
      .ok (128 :: 4 :: 0 :: 1 :: List.replicate 96 0) ∧
    legacySection 200 100 underrunStream ≠ .mismatched := by
  refine ⟨by decide, by decide, by decide, by decide⟩

/-- Claim C6 (amended): a source underrun terminates the chunk's symbol
loop with the 0x306 marker, but `repSection` ignores the code `repChunk`
returns — whenever the chunk header checks pass it reports success
(code 0) whatever the decode outcome — and the section decoder then
rejects the chunk with the mismatched-section error exactly when the
flushed output length is zero, exceeds the dictionary buffer, or
exceeds the declared section size; an underrun after at least one
flushed byte therefore yields partially decompressed data as success. -/
theorem legacySection_underrun_spec :
    (∀ (fuel : Nat) (e e5 : Esi) (len : Nat),
      ¬ (repSectionSetup e).m20 ≤ 4 →
      ¬ ((repSectionSetup e).m0C < 4 ∨ 6 < (repSectionSetup e).m0C) →
      (repSectionSetup e).m04 = 0 →
      repChunk fuel (repSectionReady e) = some (e5, len) →
      repSection fuel e = some (e5, 0)) ∧
    (∀ (fuel size length : Nat) (st : ChunkLoopState)
      (s1 chunk s2 : List Nat) (esi2 : Esi),
      readInt32 st.stream = some (length, s1) →
      ¬ ((length : Int) > (size : Int) - (st.m20 : Int)) →
      ¬ (st.result.length < st.resultOffset + length) →
      readBytes s1 length = some (chunk, s2) →
      ¬ ((length : Int) = min ((size : Int) - (st.m1C : Int)) 0x2000) →
      repSection fuel
        { st.esi with
            repSrc := chunk
            repM04 := 0
            repM08 := st.buf
            repM0C := 0
            repM10 := length
            repM14 := 0x2000 } = some (esi2, 0) →
      legacyChunksLoop fuel size 1 st =
        if esi2.repM0C = 0 ∨ 0x2000 < esi2.repM0C ∨ size < esi2.repM0C then
          .mismatched
        else
          .ok (setRange (setRange st.result st.resultOffset chunk) st.resultOffset
            ((List.range esi2.repM0C).map (storeRead esi2.repM08)))) := by
  constructor
  · intro fuel e e5 len h1 h2 h3 hchunk
    simp only [repSection]
    rw [if_neg h1, if_neg h2]
    rw [if_neg (by simpa using h3)]
    rw [hchunk]
  · intro fuel size length st s1 chunk s2 esi2 hread hfit hoob hbytes hnst hrs
    rw [show (1 : Nat) = 0 + 1 from rfl, legacyChunksLoop]
    simp only [hread]
    rw [if_neg hfit, if_neg hoob]
    simp only [hbytes]
    rw [if_neg hnst]
    simp only [hrs]
    have hb2000 : (0 : Nat) = 0 := rfl
    by_cases hb : esi2.repM0C ≤ 0x2000
    · have hb2 : ¬ (0x2000 : Nat) < esi2.repM0C := by omega
      simp only [hb2000, eq_self_iff_true, true_and, if_pos hb]
      by_cases h0 : esi2.repM0C = 0
      · simp [h0]
      · by_cases hsz : size < esi2.repM0C
        · simp [h0, hsz, hb2]
        · rw [if_neg (by simp [h0, hsz])]
          rw [if_neg (by simp [h0, hsz, hb2])]
          rw [legacyChunksLoop]
    · have hb2 : (0x2000 : Nat) < esi2.repM0C := by omega
      simp only [hb2000, eq_self_iff_true, true_and, if_neg hb]
      simp [hb2]

set_option maxRecDepth 10000 in
/-- Witness for C6 (amended): both parts applied to the concrete
underrun chunk — `repSection` reports code 0 despite the underrun, and
the chunk loop does not produce the mismatched-section error. -/
theorem legacySection_underrun_spec_witness :
    (repSection 37 underrunChunkEsi).map Prod.snd = some 0 ∧
    legacyChunksLoop 37 100 1 underrunLoopState ≠ .mismatched := by
  constructor
  · have hsome : (repChunk 37 (repSectionReady underrunChunkEsi)).isSome = true := by
      decide
    obtain ⟨p, hp⟩ := Option.isSome_iff_exists.mp hsome
    have hp2 : repChunk 37 (repSectionReady underrunChunkEsi) = some (p.1, p.2) := by
      rw [hp]
    have happ := legacySection_underrun_spec.1 37 underrunChunkEsi p.1 p.2
      (by decide) (by decide) (by decide) hp2
    rw [happ]
    rfl
  · have hsome : (repSection 37
        { underrunLoopState.esi with
            repSrc := [0, 4, 0, 1, 0]
            repM04 := 0
            repM08 := underrunLoopState.buf
            repM0C := 0
            repM10 := 5
            repM14 := 0x2000 }).isSome = true := by decide
    obtain ⟨q, hq⟩ := Option.isSome_iff_exists.mp hsome
    have hcode : q.2 = 0 := by
      have : (repSection 37
          { underrunLoopState.esi with
              repSrc := [0, 4, 0, 1, 0]
              repM04 := 0
              repM08 := underrunLoopState.buf
              repM0C := 0
              repM10 := 5
              repM14 := 0x2000 }).map Prod.snd = some 0 := by decide
      rw [hq] at this
      simpa using this
    have hm0C : q.1.repM0C = 1 := by
      have : (repSection 37
          { underrunLoopState.esi with
              repSrc := [0, 4, 0, 1, 0]
              repM04 := 0
              repM08 := underrunLoopState.buf
              repM0C := 0
              repM10 := 5
              repM14 := 0x2000 }).map (fun x => x.1.repM0C) = some 1 := by decide
      rw [hq] at this
      simpa using this
    have hq2 : repSection 37
        { underrunLoopState.esi with
            repSrc := [0, 4, 0, 1, 0]
            repM04 := 0
            repM08 := underrunLoopState.buf
            repM0C := 0
            repM10 := 5
            repM14 := 0x2000 } = some (q.1, 0) := by
      rw [hq, ← hcode]
    have happ := legacySection_underrun_spec.2 37 100 5 underrunLoopState
      ([0, 4, 0, 1, 0]) [0, 4, 0, 1, 0] [] q.1
      (by decide) (by decide) (by decide) (by decide) (by decide) hq2
    rw [happ, hm0C]
    rw [if_neg (by decide)]
    simp

/-! ## Claim C5 -/

/-- Claim C5 as stated is false: the source appends the synthetic leave
event for the replay saver without checking whether a leave-game
command of the saver is already present.  In `saverLeaveExample` the
saver (player 1, team 1) has a recorded leave-game command, yet the
assembled leave list is `[1, 2, 1]` (not `[1, 2]` as the claim
requires), and team 1 ends decremented twice, at size -1. -/
theorem winnerLeavePIDs_claim_counterexample :
    winnerLeavePIDs saverLeaveExample = [1, 2, 1] ∧
    winnerLeavePIDs saverLeaveExample ≠ [1, 2] ∧
    lookupCount
      (applyLeaves saverLeaveExample.players
        (buildTeamMaps saverLeaveExample.players).1
        (winnerLeavePIDs saverLeaveExample)) 1 = -1 := by
  refine ⟨by decide, by decide, by decide⟩

/-- Claim C5 (amended): the synthetic leave event is appended exactly when
a replay saver was inferred, that player exists and is not an observer —
with no check that a leave-game command of the saver is already present;
consequently a saver whose real leave-game command was recorded appears
once more in the leave list, and the saver's team size is decremented
once more than their recorded leave-game commands. -/
theorem winnerLeavePIDs_saver_spec (r : WReplay) (s : Nat) (p : WPlayer)
    (hs : r.repSaverPlayerID = some s) (hp : pidPlayer r.players s = some p)
    (hobs : p.observer = false) :
    winnerLeavePIDs r =
      (r.leaveGamePIDs.filter (fun pid =>
        match pidPlayer r.players pid with
        | some q => !q.observer
        | none => false)) ++ [p.pid] ∧
    (winnerLeavePIDs r).count p.pid =
      (r.leaveGamePIDs.filter (fun pid =>
        match pidPlayer r.players pid with
        | some q => !q.observer
        | none => false)).count p.pid + 1 := by
  have h1 : winnerLeavePIDs r =
      (r.leaveGamePIDs.filter (fun pid =>
        match pidPlayer r.players pid with
        | some q => !q.observer
        | none => false)) ++ [p.pid] := by
    simp only [winnerLeavePIDs, hs, hp, hobs]
    simp
  refine ⟨h1, ?_⟩
  rw [h1, List.count_append]
  simp [List.count_singleton]

/-- Witness for C5: the amended claim applied to `saverLeaveExample`. -/
theorem winnerLeavePIDs_saver_spec_witness :
    winnerLeavePIDs saverLeaveExample =
      (saverLeaveExample.leaveGamePIDs.filter (fun pid =>
        match pidPlayer saverLeaveExample.players pid with
        | some q => !q.observer
        | none => false)) ++ [1] ∧
    (winnerLeavePIDs saverLeaveExample).count 1 =
      (saverLeaveExample.leaveGamePIDs.filter (fun pid =>
        match pidPlayer saverLeaveExample.players pid with
        | some q => !q.observer
        | none => false)).count 1 + 1 :=
  winnerLeavePIDs_saver_spec saverLeaveExample 1 ⟨1, 1, .human, false⟩
    rfl (by decide) rfl

/-! ## Claim C4 -/

/-- Claim C4 as stated is false: `saverLeaveExample` has exactly 2
non-observer players on different teams and exactly 2 leave-game
commands, one from each; the claim demands the winner be the team of
the second leaver (team 2), but because the replay saver is one of the
leavers a duplicate synthetic leave is added and the winner stays
undetermined (0). -/
theorem computeWinners_claim_counterexample :
    computeWinners saverLeaveExample = 0 ∧
    computeWinners saverLeaveExample ≠ 2 := by
  refine ⟨by decide, by decide⟩

/-- Claim C4 (amended): for every parsed replay with exactly 2
non-observer, non-computer players on different teams and exactly 2
leave-game commands, one from each player, and whose inferred replay
saver (if any) does not resolve to a non-observer player, winner
computation sets the winner team to the team of the second
(chronologically later) leaver. -/
theorem computeWinners_two_player_spec
    (r : WReplay) (p1 p2 : WPlayer) (a b : Nat)
    (hps : r.players = [p1, p2])
    (hobs1 : p1.observer = false) (hobs2 : p2.observer = false)
    (hc1 : p1.ptype ≠ .computer) (hc2 : p2.ptype ≠ .computer)
    (hteam : p1.team ≠ p2.team)
    (hpid : p1.pid ≠ p2.pid)
    (hlv : r.leaveGamePIDs = [a, b])
    (hab : a = p1.pid ∧ b = p2.pid ∨ a = p2.pid ∧ b = p1.pid)
    (hsaver : ∀ s p, r.repSaverPlayerID = some s →
        pidPlayer r.players s = some p → p.observer = true) :
    computeWinners r = (if b = p1.pid then p1.team else p2.team) := by
  have ebeq : (p1.pid == p2.pid) = false := by simp [hpid]
  have ebeq2 : (p2.pid == p1.pid) = false := by simp [Ne.symm hpid]
  have hmaps : buildTeamMaps r.players = ([(p1.team, 1), (p2.team, 1)], [], 2) := by
    simp [hps, buildTeamMaps, bumpCount, hobs1, hobs2, hc1, hc2, hteam]
  have hlg : winnerLeavePIDs r = [a, b] := by
    have hfa : r.leaveGamePIDs.filter (fun pid =>
        match pidPlayer r.players pid with
        | some q => !q.observer
        | none => false) = [a, b] := by
      rcases hab with ⟨rfl, rfl⟩ | ⟨rfl, rfl⟩ <;>
        simp [hlv, pidPlayer, hps, List.find?, ebeq, ebeq2, hobs1, hobs2]
    rcases hrs : r.repSaverPlayerID with _ | s
    · simp only [winnerLeavePIDs, hrs]
      exact hfa
    · cases hfind : pidPlayer r.players s with
      | none =>
          simp only [winnerLeavePIDs, hrs, hfind]
          exact hfa
      | some q =>
          have hq := hsaver s q hrs hfind
          simp only [winnerLeavePIDs, hrs, hfind, hq]
          simpa using hfa
  have happ : applyLeaves r.players [(p1.team, 1), (p2.team, 1)] [a, b] =
      [(p1.team, 0), (p2.team, 0)] := by
    rcases hab with ⟨rfl, rfl⟩ | ⟨rfl, rfl⟩ <;>
      simp [applyLeaves, pidPlayer, hps, List.find?, decCount,
        ebeq, ebeq2, hteam, Ne.symm hteam]
  rcases hab with ⟨ha, hb⟩ | ⟨ha, hb⟩
  · subst ha; subst hb
    rw [computeWinners]
    simp only [hmaps, hlg, happ]
    norm_num [maxTeamSize, pidPlayer, hps, List.find?, ebeq, ebeq2, hpid, Ne.symm hpid]
    intro h
    exact absurd h (by simp)
  · subst ha; subst hb
    rw [computeWinners]
    simp only [hmaps, hlg, happ]
    norm_num [maxTeamSize, pidPlayer, hps, List.find?, ebeq, ebeq2, hpid, Ne.symm hpid]
    intro h
    exact absurd h (by simp)

/-- Witness for C4: the amended claim at a concrete replay whose saver is
an observer with a separate player ID; the winner is the team of the
second leaver. -/
theorem computeWinners_two_player_spec_witness :
    computeWinners
      { players := [⟨1, 1, .human, false⟩, ⟨2, 2, .human, false⟩]
        leaveGamePIDs := [1, 2]
        repSaverPlayerID := some 7 } = (if 2 = 1 then 1 else 2) :=
  computeWinners_two_player_spec _ ⟨1, 1, .human, false⟩ ⟨2, 2, .human, false⟩
    1 2 rfl rfl rfl (by decide) (by decide) (by decide) (by decide) rfl
    (Or.inl ⟨rfl, rfl⟩) (by intro s p hs hp; simp at hs; subst hs; simp [pidPlayer] at hp)

/-- Witness for C9: a concrete 2-human game where both players match the
melee observer criteria; the undo rule keeps both unflagged. -/
theorem detectObservers_spec_witness :
    2 ≤ (detectObservers ⟨25, 5, 0, false⟩
      [⟨.human, 10, 0, 100, false⟩, ⟨.human, 12, 0, 100, false⟩]).countP
        (fun p => !p.observer) :=
  detectObservers_spec ⟨25, 5, 0, false⟩
    [⟨.human, 10, 0, 100, false⟩, ⟨.human, 12, 0, 100, false⟩]
    (by decide) (by decide)

end Screp
